import Mathlib

/-!
Verification of the fiducial_vlam pose-estimation and map-update engine
(`src/fiducial_vlam/src/fiducial_math.cpp` together with the vmap node in the
same translation unit) against its specification.

Real-valued quantities (C++ `double`) are modeled as rationals so that every
definition is executable.  External collaborators — OpenCV's `solvePnP`,
`solvePnPRansac` and `Rodrigues`, GTSAM's Levenberg-Marquardt optimizer and
`Marginals`, tf2's Euler-angle conversions (`getRPY`/`setRPY`) and the
running-average of `TransformWithCovariance` (whose .cpp is not part of the
sources) — are fields of an `Env` record; theorems quantify over every
behaviour of those collaborators.
-/

namespace FiducialVlam

/-- A 3-vector of rationals (tf2::Vector3, cv::Vec3d, cv::Point3d). -/
abbrev Vec3 := Fin 3 → ℚ

/-- A 2D image point (cv::Point2f, gtsam::Point2). -/
abbrev Point2 := Fin 2 → ℚ

/-- A 3x3 matrix (tf2::Matrix3x3). -/
abbrev Basis := Fin 3 → Fin 3 → ℚ

/-- A 6x6 matrix (gtsam::Matrix6). -/
abbrev Mat6 := Fin 6 → Fin 6 → ℚ

/-- The 36-entry row-major 6x6 covariance array
(`TransformWithCovariance::cov_type`). -/
abbrev Cov36 := Fin 36 → ℚ

/-- A rigid transform as stored by tf2::Transform: 3x3 basis matrix plus
origin vector. -/
structure Transform where
  basis : Basis
  origin : Vec3

namespace Transform

/-- Identity transform. -/
def ident : Transform := ⟨fun i j => if i = j then 1 else 0, fun _ => 0⟩

/-- tf2 application of a transform to a point: rotate by the basis, then
translate by the origin. -/
def apply (t : Transform) (v : Vec3) : Vec3 :=
  fun i => t.basis i 0 * v 0 + t.basis i 1 * v 1 + t.basis i 2 * v 2 + t.origin i

/-- tf2 composition of rigid transforms: basis product, and the first
transform applied to the second origin. -/
def compose (a b : Transform) : Transform :=
  ⟨fun i j => a.basis i 0 * b.basis 0 j + a.basis i 1 * b.basis 1 j + a.basis i 2 * b.basis 2 j,
   fun i => a.basis i 0 * b.origin 0 + a.basis i 1 * b.origin 1 + a.basis i 2 * b.origin 2
            + a.origin i⟩

/-- tf2 `Transform::inverse`: transpose of the (orthogonal) basis, applied to
the negated origin. -/
def inverse (t : Transform) : Transform :=
  ⟨fun i j => t.basis j i,
   fun i => -(t.basis 0 i * t.origin 0 + t.basis 1 i * t.origin 1 + t.basis 2 i * t.origin 2)⟩

end Transform

/-- TransformWithCovariance: a rigid transform, a 36-entry covariance over
(x, y, z, roll, pitch, yaw), and a validity flag.  The class implementation
(`transform_with_covariance.cpp`) is not among the sources; the data layout
follows the spec §3 and the uses in `fiducial_math.cpp`. -/
structure TransformWithCovariance where
  is_valid : Bool
  transform : Transform
  cov : Cov36

namespace TransformWithCovariance

/-- Modelled from the spec: the default `TransformWithCovariance{}` is the
invalid ("no solution") value (§4.1 `is_valid` distinguishes "no solution"
from "identity"); the transform carried by an invalid value is never
meaningful, and is modeled as the identity. -/
def invalid : TransformWithCovariance := ⟨false, Transform.ident, fun _ => 0⟩

/-- Modelled from the spec: construction from a transform alone yields a valid
value with the zero covariance (§4.4: geometric results carry
"covariance = zero matrix"). -/
def ofTransform (t : Transform) : TransformWithCovariance := ⟨true, t, fun _ => 0⟩

end TransformWithCovariance

/-- Marker: id, pose in the map frame, update count and fixed flag (spec §3). -/
structure Marker where
  id : Int
  t_map_marker : TransformWithCovariance
  update_count : Int
  is_fixed : Bool

/-- Modelled from the spec: the `Marker(id, twc)` constructor (map.hpp is not
among the sources).  Scenario 3 of §8 requires a marker inserted by
`update_map` through this constructor to be "not fixed" with
"update_count = 1", and the style-1 initialization in `vmap_node` calls
`set_is_fixed(true)` explicitly after construction, so the constructor itself
yields a non-fixed marker. -/
def Marker.ofIdTwc (id : Int) (twc : TransformWithCovariance) : Marker :=
  ⟨id, twc, 1, false⟩

/-- Map styles (Map::MapStyles; values 0, 1, 2 per the Map message). -/
inductive MapStyle
  | pose
  | covariance
  | corners
deriving DecidableEq

/-- Map: style, marker side length and the marker collection (spec §3). -/
structure Map where
  map_style : MapStyle
  marker_length : ℚ
  markers : List Marker

namespace Map

/-- Modelled from the spec: `Map::find_marker(id)` (map.cpp is not among the
sources) — lookup of a marker by id. -/
def find_marker (map : Map) (id : Int) : Option Marker :=
  map.markers.find? (fun m => m.id = id)

/-- Modelled from the spec: `Map::add_marker` (map.cpp is not among the
sources) — insertion that rejects a duplicate id (§4.2), leaving the map
unchanged in that case. -/
def add_marker (map : Map) (marker : Marker) : Map :=
  match map.find_marker marker.id with
  | some _ => map
  | none => ⟨map.map_style, map.marker_length, map.markers ++ [marker]⟩

/-- In-place mutation of the found marker through its pointer: every stored
marker carrying the given marker's id is replaced by it. -/
def set_marker (map : Map) (marker : Marker) : Map :=
  ⟨map.map_style, map.marker_length,
   map.markers.map (fun m => if m.id = marker.id then marker else m)⟩

end Map

/-- Observation: marker id and the four image corners in canonical order
(x0,y0 .. x3,y3), as in observation.hpp's accessors. -/
structure Observation where
  id : Int
  x0 : ℚ
  y0 : ℚ
  x1 : ℚ
  y1 : ℚ
  x2 : ℚ
  y2 : ℚ
  x3 : ℚ
  y3 : ℚ

/-- Modelled from the spec: `Map::find_t_map_markers(observations)` (map.cpp
is not among the sources) — for each observation, in order, the map pose of
its marker if known, else an invalid TransformWithCovariance (§4.2). -/
def Map.find_t_map_markers (map : Map) (observations : List Observation) :
    List TransformWithCovariance :=
  observations.map (fun o =>
    match map.find_marker o.id with
    | some m => m.t_map_marker
    | none => TransformWithCovariance.invalid)

/-- Output of cv::solvePnP / cv::solvePnPRansac: a rotation vector and a
translation vector. -/
structure PnPResult where
  rvec : Vec3
  tvec : Vec3

/-- A gtsam::Symbol as used by SamFiducialMath: the camera variable is keyed
under 'c' with an index, marker variables under 'm' with the marker id. -/
inductive SamKey
  | camera (n : Nat)
  | marker (id : Int)
deriving DecidableEq

/-- A gtsam::Pose3.  Both tf2::Transform and gtsam::Pose3 represent elements
of SE(3); the conversions through quaternions in `to_pose3` and
`to_transform_with_covariance` are exact on real numbers, so the embedding
uses one representation for both. -/
abbrev Pose3 := Transform

/-- SamFiducialMath::to_pose3 — the tf2-to-gtsam conversion (exact, see
`Pose3`). -/
def to_pose3 (t : Transform) : Pose3 := t

/-- A gtsam noise model as used for the marker-pose priors: either the
constrained model `Constrained::MixedSigmas(Z_6x1)` (pose fixed exactly) or a
Gaussian built from a covariance matrix. -/
inductive NoiseModel
  | constrained
  | gaussianCov (cov : Mat6)

/-- Whether a noise model is the constrained (zero-sigma) model. -/
def NoiseModel.isConstrained : NoiseModel → Bool
  | .constrained => true
  | .gaussianCov _ => false

/-- A factor of the nonlinear factor graph, as emplaced by SamFiducialMath:
a resectioning factor (unary, on a pose key, with the observed 2D point and
the fixed 3D point; the isotropic corner noise and the camera calibration are
fixed per SamFiducialMath instance and elided), a between factor with a
Gaussian noise built from a covariance, or a prior factor with its noise
model. -/
inductive SamFactor
  | resectioning (key : SamKey) (p : Point2) (bigP : Vec3)
  | between (key1 key2 : SamKey) (mean : Pose3) (cov : Mat6)
  | prior (key : SamKey) (mean : Pose3) (noise : NoiseModel)

/-- A gtsam::Values assignment under construction: insertion order is kept. -/
abbrev SamValues := List (SamKey × Pose3)

/-- The external collaborators of the engine, kept abstract: OpenCV's PnP
solvers and Rodrigues conversion, tf2's Euler conversions, the
running-average update of TransformWithCovariance (its .cpp is not among the
sources), and GTSAM's optimizer and marginal-covariance computation. -/
structure Env where
  solvePnP : List Vec3 → List Point2 → PnPResult
  solvePnPRansac : List Vec3 → List Point2 → PnPResult
  rodrigues : Vec3 → Basis
  getRPY : Basis → Vec3
  setRPY : Vec3 → Basis
  update_simple_average :
    TransformWithCovariance → Int → TransformWithCovariance → TransformWithCovariance
  optimize : List SamFactor → SamValues → SamKey → Pose3
  marginalCovariance : List SamFactor → (SamKey → Pose3) → SamKey → Mat6

namespace CvFiducialMath

/-- CvFiducialMath::to_tf2_transform: Rodrigues on the rotation vector, with
the translation vector as origin. -/
def to_tf2_transform (env : Env) (rvec tvec : Vec3) : Transform :=
  ⟨env.rodrigues rvec, tvec⟩

/-- CvFiducialMath::append_corners_f_marker: the four marker-frame corners of
a marker of side `marker_length`, in canonical order. -/
def corners_f_marker (marker_length : ℚ) : List Vec3 :=
  [![-marker_length / 2, marker_length / 2, 0],
   ![marker_length / 2, marker_length / 2, 0],
   ![marker_length / 2, -marker_length / 2, 0],
   ![-marker_length / 2, -marker_length / 2, 0]]

/-- CvFiducialMath::append_corners_f_map: the four marker-frame corners
transformed into the map frame by `t_map_marker`. -/
def corners_f_map (t_map_marker : TransformWithCovariance) (marker_length : ℚ) : List Vec3 :=
  (corners_f_marker marker_length).map t_map_marker.transform.apply

/-- CvFiducialMath::append_corners_f_image: the four observed image corners. -/
def corners_f_image (observation : Observation) : List Point2 :=
  [![observation.x0, observation.y0],
   ![observation.x1, observation.y1],
   ![observation.x2, observation.y2],
   ![observation.x3, observation.y3]]

/-- CvFiducialMath::solve_t_camera_marker: one iterative PnP solve of the four
marker-frame / image-frame corner pairs; the result is t_camera_marker with
zero covariance. -/
def solve_t_camera_marker (env : Env) (observation : Observation) (marker_length : ℚ) :
    TransformWithCovariance :=
  let r := env.solvePnP (corners_f_marker marker_length) (corners_f_image observation)
  TransformWithCovariance.ofTransform (to_tf2_transform env r.rvec r.tvec)

/-- The concatenated map-frame corners of every observation whose marker is
known, in observation order (the `all_corners_f_map` accumulation of
CvFiducialMath::solve_t_map_camera). -/
def all_corners_f_map (observations : List Observation) (map : Map) : List Vec3 :=
  (observations.zip (map.find_t_map_markers observations)).foldl (fun acc p =>
    if p.2.is_valid then acc ++ corners_f_map p.2 map.marker_length else acc) []

/-- The concatenated image corners of every observation whose marker is
known, in observation order (the `all_corners_f_image` accumulation of
CvFiducialMath::solve_t_map_camera). -/
def all_corners_f_image (observations : List Observation) (map : Map) : List Point2 :=
  (observations.zip (map.find_t_map_markers observations)).foldl (fun acc p =>
    if p.2.is_valid then acc ++ corners_f_image p.1 else acc) []

/-- CvFiducialMath::solve_t_map_camera: concatenate the map-frame and
image-frame corners of every observation whose marker is known, return
invalid if there are none, run the iterative PnP solve, run the
RANSAC-based guard when the corner count is strictly between 4 and 16, and
return the inverse of the selected camera-from-map transform. -/
def solve_t_map_camera (env : Env) (observations : List Observation) (map : Map) :
    TransformWithCovariance :=
  let all_corners_f_map := all_corners_f_map observations map
  let all_corners_f_image := all_corners_f_image observations map
  if all_corners_f_map.isEmpty then
    TransformWithCovariance.invalid
  else
    let r := env.solvePnP all_corners_f_map all_corners_f_image
    let r :=
      if 1 * 4 < all_corners_f_image.length ∧ all_corners_f_image.length < 4 * 4 then
        let rr := env.solvePnPRansac all_corners_f_map all_corners_f_image
        if |r.rvec 0 - rr.rvec 0| > 1/2 ∨ |r.rvec 1 - rr.rvec 1| > 1/2 ∨
           |r.rvec 2 - rr.rvec 2| > 1/2 then rr else r
      else r
    TransformWithCovariance.ofTransform (to_tf2_transform env r.rvec r.tvec).inverse

/-- CvFiducialMath::update_marker_simple_average: a non-fixed marker's pose is
replaced by the running average and its update count incremented; a fixed
marker is left untouched. -/
def update_marker_simple_average (env : Env) (existing : Marker)
    (another_twc : TransformWithCovariance) : Marker :=
  if existing.is_fixed then existing
  else
    { existing with
      t_map_marker :=
        env.update_simple_average existing.t_map_marker existing.update_count another_twc,
      update_count := existing.update_count + 1 }

/-- CvFiducialMath::update_map: for each observation solve t_camera_marker,
compose with the given t_map_camera, and average into an existing marker or
insert a new one.  There is no validity check on `t_map_camera`. -/
def update_map (env : Env) (t_map_camera : TransformWithCovariance)
    (observations : List Observation) (map : Map) : Map :=
  observations.foldl (fun map observation =>
    let t_camera_marker := solve_t_camera_marker env observation map.marker_length
    let t_map_marker :=
      TransformWithCovariance.ofTransform
        (t_map_camera.transform.compose t_camera_marker.transform)
    match map.find_marker observation.id with
    | some marker => map.set_marker (update_marker_simple_average env marker t_map_marker)
    | none => map.add_marker (Marker.ofIdTwc observation.id t_map_marker)) map

end CvFiducialMath

namespace SamFiducialMath

/-- The index permutation `ro = {3, 4, 5, 0, 1, 2}` used by `to_cov_sam` and
`to_cov_type`. -/
def ro : Fin 6 → Fin 6 := ![3, 4, 5, 0, 1, 2]

/-- SamFiducialMath::to_cov_sam: the 36-entry external covariance
(x, y, z, roll, pitch, yaw) rearranged into gtsam's
(roll, pitch, yaw, x, y, z) ordering.  The source assigns
`cov_sam(ro[r], ro[c]) = cov[r*6+c]`; since `ro` is an involution this is the
same as reading entry `(i, j)` from `cov[6*ro[i] + ro[j]]`
(see `to_cov_sam_spec` below among the theorems). -/
def to_cov_sam (cov : Cov36) : Mat6 := fun i j =>
  cov ⟨6 * (ro i).val + (ro j).val, by
    have hi := (ro i).isLt
    have hj := (ro j).isLt
    omega⟩

/-- SamFiducialMath::to_cov_type: the gtsam-ordered 6x6 covariance written
back into the 36-entry external ordering,
`cov[r*6+c] = cov_sam(ro[r], ro[c])`.  The `sam_pose` argument is unused in
the source (a rotation of the covariance is commented out there). -/
def to_cov_type (_sam_pose : Pose3) (cov_sam : Mat6) : Cov36 := fun k =>
  cov_sam (ro ⟨k.val / 6, by omega⟩) (ro ⟨k.val % 6, by omega⟩)

/-- SamFiducialMath::to_transform_with_covariance: a valid
TransformWithCovariance from a gtsam pose and a gtsam-ordered covariance. -/
def to_transform_with_covariance (sam_pose : Pose3) (sam_cov : Mat6) :
    TransformWithCovariance :=
  ⟨true, sam_pose, to_cov_type sam_pose sam_cov⟩

/-- SamFiducialMath::extract_transform_with_covariance: the optimized pose at
`key` together with its marginal covariance. -/
def extract_transform_with_covariance (env : Env) (graph : List SamFactor)
    (result : SamKey → Pose3) (key : SamKey) : TransformWithCovariance :=
  to_transform_with_covariance (result key) (env.marginalCovariance graph result key)

/-- The camera key `Symbol('c', 1)` held by SamFiducialMath. -/
def camera_key : SamKey := SamKey.camera 1

/-- SamFiducialMath::solve_camera_f_marker: a graph of 4 resectioning factors
(one per corner) on the camera key, the initial estimate obtained by
inverting the geometric `solve_t_camera_marker`, optimized; the result is the
camera-in-marker-frame pose with its marginal covariance. -/
def solve_camera_f_marker (env : Env) (observation : Observation) (marker_length : ℚ) :
    TransformWithCovariance :=
  let graph :=
    ((CvFiducialMath.corners_f_image observation).zip
      (CvFiducialMath.corners_f_marker marker_length)).map
      (fun c => SamFactor.resectioning camera_key c.1 c.2)
  let cv_t_camera_marker := CvFiducialMath.solve_t_camera_marker env observation marker_length
  let camera_f_marker_initial := to_pose3 cv_t_camera_marker.transform.inverse
  let initial : SamValues := [(camera_key, camera_f_marker_initial)]
  let result := env.optimize graph initial
  extract_transform_with_covariance env graph result camera_key

/-- The loop body of SamFiducialMath::load_graph_from_observations: for an
observation of a known marker, append a between factor from its
`solve_camera_f_marker` measurement, a prior on the marker (constrained when
the marker is fixed, the map style is pose, or the gtsam-ordered stored
covariance has zero at (0,0); Gaussian from the stored covariance otherwise)
and the marker's initial value; for an observation of an unknown marker,
when `add_unknown_markers` is set, the between factor and an initial value
derived from the camera pose. -/
def load_graph_step (env : Env) (t_map_camera : TransformWithCovariance) (map : Map)
    (camera_key : SamKey) (add_unknown_markers : Bool)
    (acc : List SamFactor × SamValues) (observation : Observation) :
    List SamFactor × SamValues :=
  let graph := acc.1
  let initial := acc.2
  let marker_key := SamKey.marker observation.id
  match map.find_marker observation.id with
    | some marker_ptr =>
      let camera_f_marker := solve_camera_f_marker env observation map.marker_length
      let cov := to_cov_sam camera_f_marker.cov
      let graph := graph ++
        [SamFactor.between marker_key camera_key (to_pose3 camera_f_marker.transform) cov]
      let known_marker_f_map := to_pose3 marker_ptr.t_map_marker.transform
      let known_marker_cov := to_cov_sam marker_ptr.t_map_marker.cov
      let use_constrained := marker_ptr.is_fixed ∨
        map.map_style = MapStyle.pose ∨ known_marker_cov 0 0 = 0
      let known_noise_model :=
        if use_constrained then NoiseModel.constrained
        else NoiseModel.gaussianCov known_marker_cov
      let graph := graph ++
        [SamFactor.prior marker_key known_marker_f_map known_noise_model]
      let initial := initial ++ [(marker_key, known_marker_f_map)]
      (graph, initial)
    | none =>
      if add_unknown_markers then
        let camera_f_marker := solve_camera_f_marker env observation map.marker_length
        let cov := to_cov_sam camera_f_marker.cov
        let graph := graph ++
          [SamFactor.between marker_key camera_key (to_pose3 camera_f_marker.transform) cov]
        let unknown_marker_f_map :=
          t_map_camera.transform.compose camera_f_marker.transform.inverse
        let initial := initial ++ [(marker_key, to_pose3 unknown_marker_f_map)]
        (graph, initial)
      else
        (graph, initial)

/-- SamFiducialMath::load_graph_from_observations: the empty graph and
initial estimate, folded through `load_graph_step` (the body of the source's
observation loop) and finished with the camera initial value. -/
def load_graph_from_observations (env : Env) (t_map_camera : TransformWithCovariance)
    (observations : List Observation) (map : Map) (camera_key : SamKey)
    (add_unknown_markers : Bool) : List SamFactor × SamValues :=
  let loaded := observations.foldl
    (load_graph_step env t_map_camera map camera_key add_unknown_markers) ([], [])
  (loaded.1, loaded.2 ++ [(camera_key, to_pose3 t_map_camera.transform)])

/-- SamFiducialMath::solve_t_map_camera: geometric estimate first (invalid is
returned as is), then the graph built by `load_graph_from_observations` with
`add_unknown_markers = false` is optimized and the camera pose extracted with
its marginal covariance. -/
def solve_t_map_camera (env : Env) (observations : List Observation) (map : Map) :
    TransformWithCovariance :=
  let cv_t_map_camera := CvFiducialMath.solve_t_map_camera env observations map
  if !cv_t_map_camera.is_valid then cv_t_map_camera
  else
    let loaded := load_graph_from_observations env cv_t_map_camera observations map
      camera_key false
    let result := env.optimize loaded.1 loaded.2
    extract_transform_with_covariance env loaded.1 result camera_key

/-- SamFiducialMath::update_map: no-op unless the camera pose is valid and at
least two markers were seen; otherwise the graph with unknown markers added
is optimized and, for every observation, the optimized marker pose with
marginal covariance is written back (insert if new; overwrite and bump the
update count if existing and not fixed). -/
def update_map (env : Env) (t_map_camera : TransformWithCovariance)
    (observations : List Observation) (map : Map) : Map :=
  if !t_map_camera.is_valid ∨ observations.length < 2 then map
  else
    let ck := SamKey.camera 0
    let loaded := load_graph_from_observations env t_map_camera observations map ck true
    let result := env.optimize loaded.1 loaded.2
    observations.foldl (fun map observation =>
      let marker_key := SamKey.marker observation.id
      let t_map_marker := extract_transform_with_covariance env loaded.1 result marker_key
      match map.find_marker observation.id with
      | none => map.add_marker (Marker.ofIdTwc observation.id t_map_marker)
      | some marker_ptr =>
        if !marker_ptr.is_fixed then
          map.set_marker
            { marker_ptr with t_map_marker := t_map_marker,
                              update_count := marker_ptr.update_count + 1 }
        else map) map

end SamFiducialMath

/-- FiducialMath::solve_t_map_camera: dispatch on the `sam_not_cv` flag. -/
def FiducialMath.solve_t_map_camera (sam_not_cv : Bool) (env : Env)
    (observations : List Observation) (map : Map) : TransformWithCovariance :=
  if sam_not_cv then SamFiducialMath.solve_t_map_camera env observations map
  else CvFiducialMath.solve_t_map_camera env observations map

/-- FiducialMath::update_map: dispatch on the `sam_not_cv` flag. -/
def FiducialMath.update_map (sam_not_cv : Bool) (env : Env)
    (t_map_camera : TransformWithCovariance) (observations : List Observation)
    (map : Map) : Map :=
  if sam_not_cv then SamFiducialMath.update_map env t_map_camera observations map
  else CvFiducialMath.update_map env t_map_camera observations map

/-- The vmap node's configuration (VmapContext), restricted to the fields the
initialization and observation paths consult.  `from_yaml_file` stands for
the outcome of `from_YAML_file(marker_map_load_full_filename_)`, an external
file read. -/
structure VmapContext where
  make_not_use_map : Bool
  map_init_style : Int
  sam_not_cv : Bool
  marker_length : ℚ
  map_init_id : Int
  map_init_transform : TransformWithCovariance
  from_yaml_file : Except String Map

namespace VmapNode

/-- VmapNode::initialize_map: when using (not making) a map, a successful file
load wins; otherwise style 2 defers construction (no map object is created),
style 0 seats a marker copied from the file as fixed when possible, and
style 1 (also every fall-through) seats the configured marker as fixed.  The
style of a newly built map is covariance for the SAM backend and pose
otherwise. -/
def initialize_map (cxt : VmapContext) : Option Map :=
  let loaded :=
    if !cxt.make_not_use_map then
      match cxt.from_yaml_file with
      | .ok m => some m
      | .error _ => none
    else none
  match loaded with
  | some m => some m
  | none =>
    if cxt.map_init_style = 2 then none
    else
      let new_map_style :=
        if cxt.sam_not_cv then MapStyle.covariance else MapStyle.pose
      let style0 :=
        if cxt.map_init_style = 0 then
          match cxt.from_yaml_file with
          | .error _ => none
          | .ok map_temp =>
            match map_temp.find_marker cxt.map_init_id with
            | none => none
            | some marker_temp =>
              let marker_copy := { marker_temp with is_fixed := true }
              some ((Map.mk new_map_style cxt.marker_length []).add_marker marker_copy)
        else none
      match style0 with
      | some m => some m
      | none =>
        let marker_new :=
          { Marker.ofIdTwc cxt.map_init_id cxt.map_init_transform with is_fixed := true }
        some ((Map.mk new_map_style cxt.marker_length []).add_marker marker_new)

/-- VmapNode::initialize_map_from_observations: scan for the observation with
the lowest marker id (strict comparison against an accumulator that starts at
INT_MAX, so the first occurrence of the minimum is kept), solve
t_camera_marker for it, seat it at the configured t_map_camera.  The marker
is created by the plain constructor: `set_is_fixed(true)` is never called on
it.  In the source this mutates the member map through `map_->add_marker`;
the map is an explicit argument here. -/
def initialize_map_from_observations (cxt : VmapContext) (env : Env)
    (observations : List Observation) (map : Map) : Map :=
  let scan := observations.foldl
    (fun (acc : Int × Option Observation) obs =>
      if obs.id < acc.1 then (obs.id, some obs) else acc)
    ((2147483647 : Int), none)
  match scan.2 with
  | none => map
  | some min_obs =>
    let t_camera_marker := CvFiducialMath.solve_t_camera_marker env min_obs cxt.marker_length
    let t_map_camera := cxt.map_init_transform
    let t_map_marker :=
      TransformWithCovariance.ofTransform
        (t_map_camera.transform.compose t_camera_marker.transform)
    map.add_marker (Marker.ofIdTwc scan.1 t_map_marker)

/-- VmapNode::observations_callback, as a map transformer.  When the member
map is still null the source calls `initialize_map_from_observations`, which
dereferences the null `map_` (`map_->add_marker`) — undefined behavior — and
in no reading ever assigns `map_`, so the absent map stays absent here.  With
a map present: a batch of fewer than 2 observations returns before any
solver; otherwise the camera is localized and, when the pose is valid, the
map updated. -/
def observations_callback (cxt : VmapContext) (env : Env)
    (observations : List Observation) : Option Map → Option Map
  | none => none
  | some m =>
    if observations.length < 2 then some m
    else
      let t_map_camera := FiducialMath.solve_t_map_camera cxt.sam_not_cv env observations m
      if t_map_camera.is_valid then
        some (FiducialMath.update_map cxt.sam_not_cv env t_map_camera observations m)
      else some m

end VmapNode

/-- A YAML document tree, the shape yaml-cpp's emitter receives and its
parser hands back; the textual encoding and decoding between two such trees
is the external yaml-cpp round trip. -/
inductive YamlNode
  | scalar (v : ℚ)
  | seq (items : List YamlNode)
  | kvmap (entries : List (String × YamlNode))

/-- YAML::Node operator[] on a map node. -/
def YamlNode.get (node : YamlNode) (key : String) : Option YamlNode :=
  match node with
  | .kvmap entries => entries.lookup key
  | _ => none

/-- YAML `as<int>` on a scalar holding a numeric value.  Every scalar the
emitter casts back through this (`id`, `u`, `f`, `map_style`) is an integer,
so the denominator is 1 and the cast is exact. -/
def asInt (q : ℚ) : Int := q.num / q.den

/-- The integer persisted for each map style (matches the Map message:
0 pose, 1 covariance, 2 corners). -/
def styleToInt : MapStyle → ℚ
  | .pose => 0
  | .covariance => 1
  | .corners => 2

/-- The `static_cast<Map::MapStyles>` of a persisted style integer.  The
emitter only ever produces 0, 1 or 2; other values are out of the enum's
range and are modeled as pose. -/
def styleOfInt (i : Int) : MapStyle :=
  if i = 1 then MapStyle.covariance
  else if i = 2 then MapStyle.corners
  else MapStyle.pose

/-- Modelled from the spec: the `TransformWithCovariance(mu, cov)` constructor
(transform_with_covariance.cpp is not among the sources): a valid value whose
origin is the xyz part of the mean and whose basis comes from `setRPY` on the
rpy part (§3: construction from 6-vector mean + 36-entry covariance). -/
def TransformWithCovariance.ofMu (env : Env) (mu : Fin 6 → ℚ) (cov : Cov36) :
    TransformWithCovariance :=
  ⟨true, ⟨env.setRPY ![mu 3, mu 4, mu 5], ![mu 0, mu 1, mu 2]⟩, cov⟩

namespace ToYAML

/-- ToYAML::do_marker: id, update count, fixed flag, origin as `xyz`, Euler
angles of the basis as `rpy`, and — only when the map style is not pose — the
36 covariance entries as `cov`. -/
def do_marker (env : Env) (map_style : MapStyle) (marker : Marker) : YamlNode :=
  let c := marker.t_map_marker.transform.origin
  let rpy := env.getRPY marker.t_map_marker.transform.basis
  YamlNode.kvmap
    ([("id", YamlNode.scalar (marker.id : ℚ)),
      ("u", YamlNode.scalar (marker.update_count : ℚ)),
      ("f", YamlNode.scalar (if marker.is_fixed then 1 else 0)),
      ("xyz", YamlNode.seq [.scalar (c 0), .scalar (c 1), .scalar (c 2)]),
      ("rpy", YamlNode.seq [.scalar (rpy 0), .scalar (rpy 1), .scalar (rpy 2)])]
     ++ (if map_style ≠ MapStyle.pose then
          [("cov", YamlNode.seq
            ((List.finRange 36).map (fun i => YamlNode.scalar (marker.t_map_marker.cov i))))]
         else []))

/-- ToYAML::do_map (with do_header and do_markers inlined): marker length, map
style, and the marker sequence in the map's iteration order. -/
def do_map (env : Env) (map : Map) : YamlNode :=
  YamlNode.kvmap
    [("marker_length", YamlNode.scalar map.marker_length),
     ("map_style", YamlNode.scalar (styleToInt map.map_style)),
     ("markers", YamlNode.seq (map.markers.map (do_marker env map.map_style)))]

end ToYAML

namespace FromYAML

/-- FromYAML::from_marker: validate and read id, update count, fixed flag,
xyz, rpy, and — only when the map style is not pose — the 36 covariance
entries (a missing `cov` is an error in that case); build the marker from the
mean/covariance constructor, then set the fixed flag (nonzero integer) and
the update count. -/
def from_marker (env : Env) (map_style : MapStyle) (marker_node : YamlNode) :
    Except String Marker := do
  let idv ← match marker_node.get "id" with
    | some (.scalar v) => pure v
    | _ => Except.error "marker.id failed IsScalar()"
  let uv ← match marker_node.get "u" with
    | some (.scalar v) => pure v
    | _ => Except.error "marker.update_count failed IsScalar()"
  let fv ← match marker_node.get "f" with
    | some (.scalar v) => pure v
    | _ => Except.error "marker.is_fixed failed IsScalar()"
  let xyz ← match marker_node.get "xyz" with
    | some (.seq [.scalar a, .scalar b, .scalar c]) => pure ![a, b, c]
    | some (.seq items) =>
        if items.length = 3 then Except.error "marker.xyz[i] failed IsScalar()"
        else Except.error "marker.xyz incorrect size"
    | _ => (Except.error "marker.xyz failed IsSequence()" : Except String Vec3)
  let rpy ← match marker_node.get "rpy" with
    | some (.seq [.scalar a, .scalar b, .scalar c]) => pure ![a, b, c]
    | some (.seq items) =>
        if items.length = 3 then Except.error "marker.rpy[i] failed IsScalar()"
        else Except.error "marker.rpy incorrect size"
    | _ => (Except.error "marker.rpy failed IsSequence()" : Except String Vec3)
  let mu : Fin 6 → ℚ := ![xyz 0, xyz 1, xyz 2, rpy 0, rpy 1, rpy 2]
  let cov : Cov36 ←
    if map_style ≠ MapStyle.pose then
      match marker_node.get "cov" with
      | some (.seq items) =>
        if items.length = 36 then
          match items.mapM (fun item => match item with
            | .scalar v => some v
            | _ => none) with
          | some vals => pure (fun i => vals.getD i.val 0)
          | none => Except.error "marker.cov[i] failed IsScalar()"
        else Except.error "marker.cov incorrect size"
      | _ => Except.error "marker.cov failed IsSequence()"
    else pure (fun _ => 0)
  let marker := Marker.ofIdTwc (asInt idv) (TransformWithCovariance.ofMu env mu cov)
  pure { marker with is_fixed := asInt fv != 0, update_count := asInt uv }

/-- FromYAML::from_markers: every element of the sequence must be a map and
parse as a marker; markers are added to the map in sequence order. -/
def from_markers (env : Env) (marker_nodes : List YamlNode) (map : Map) :
    Except String Map :=
  marker_nodes.foldlM (fun map node =>
    match node with
    | .kvmap _ => do
      let marker ← from_marker env map.map_style node
      pure (map.add_marker marker)
    | _ => Except.error "marker failed IsMap()") map

/-- FromYAML::from_map: the root must be a map; a missing or non-scalar
`map_style` is read as pose; `marker_length` must be a scalar (the Map object
is created only then) and `markers` a sequence. -/
def from_map (env : Env) (root : YamlNode) : Except String Map :=
  match root with
  | .kvmap _ =>
    let map_style :=
      match root.get "map_style" with
      | some (.scalar v) => styleOfInt (asInt v)
      | _ => MapStyle.pose
    match root.get "marker_length" with
    | some (.scalar marker_length) =>
      let map := Map.mk map_style marker_length []
      match root.get "markers" with
      | some (.seq marker_nodes) => from_markers env marker_nodes map
      | _ => Except.error "markers failed IsSequence()"
    | _ => Except.error "marker_length failed IsScalar()"
  | _ => Except.error "root failed IsMap()"

end FromYAML

/-! ### Derived graph-inspection definitions and concrete fixtures -/

/-- The number of resectioning factors in a graph. -/
def num_resectioning (graph : List SamFactor) : Nat :=
  (graph.filter (fun f => match f with
    | .resectioning _ _ _ => true
    | _ => false)).length

/-- The number of between factors in a graph. -/
def num_between (graph : List SamFactor) : Nat :=
  (graph.filter (fun f => match f with
    | .between _ _ _ _ => true
    | _ => false)).length

/-- The number of prior factors in a graph. -/
def num_prior (graph : List SamFactor) : Nat :=
  (graph.filter (fun f => match f with
    | .prior _ _ _ => true
    | _ => false)).length

/-- The noise models of the prior factors on a given key, in graph order. -/
def priors_on (graph : List SamFactor) (key : SamKey) : List NoiseModel :=
  graph.filterMap (fun f => match f with
    | .prior k _ noise => if k = key then some noise else none
    | _ => none)

/-- The per-observation factor block of
`SamFiducialMath::load_graph_from_observations` (one iteration of its loop):
a between factor plus a prior for a known marker, a between factor alone for
an unknown marker when `add_unknown_markers`, nothing otherwise. -/
def observation_factors (env : Env) (map : Map) (camera_key : SamKey)
    (add_unknown_markers : Bool) (o : Observation) : List SamFactor :=
  match map.find_marker o.id with
  | some marker_ptr =>
    let camera_f_marker := SamFiducialMath.solve_camera_f_marker env o map.marker_length
    [SamFactor.between (SamKey.marker o.id) camera_key (to_pose3 camera_f_marker.transform)
       (SamFiducialMath.to_cov_sam camera_f_marker.cov),
     SamFactor.prior (SamKey.marker o.id) (to_pose3 marker_ptr.t_map_marker.transform)
       (if marker_ptr.is_fixed ∨ map.map_style = MapStyle.pose ∨
           SamFiducialMath.to_cov_sam marker_ptr.t_map_marker.cov 0 0 = 0
        then NoiseModel.constrained
        else NoiseModel.gaussianCov (SamFiducialMath.to_cov_sam marker_ptr.t_map_marker.cov))]
  | none =>
    if add_unknown_markers then
      let camera_f_marker := SamFiducialMath.solve_camera_f_marker env o map.marker_length
      [SamFactor.between (SamKey.marker o.id) camera_key (to_pose3 camera_f_marker.transform)
        (SamFiducialMath.to_cov_sam camera_f_marker.cov)]
    else []

/-- The per-observation initial-estimate block of
`SamFiducialMath::load_graph_from_observations`: the stored map pose for a
known marker, the camera-derived estimate for an unknown marker when
`add_unknown_markers`, nothing otherwise. -/
def observation_initial (env : Env) (t_map_camera : TransformWithCovariance) (map : Map)
    (add_unknown_markers : Bool) (o : Observation) : SamValues :=
  match map.find_marker o.id with
  | some marker_ptr => [(SamKey.marker o.id, to_pose3 marker_ptr.t_map_marker.transform)]
  | none =>
    if add_unknown_markers then
      let camera_f_marker := SamFiducialMath.solve_camera_f_marker env o map.marker_length
      [(SamKey.marker o.id,
        to_pose3 (t_map_camera.transform.compose camera_f_marker.transform.inverse))]
    else []

/-- The field-by-field relation between a marker and its YAML round trip:
identical id, update count and fixed flag, identical origin and covariance,
and a basis rebuilt by `setRPY` from the emitted Euler angles. -/
def RoundTripRel (env : Env) (mk mk' : Marker) : Prop :=
  mk'.id = mk.id ∧ mk'.update_count = mk.update_count ∧ mk'.is_fixed = mk.is_fixed ∧
  mk'.t_map_marker.transform.origin = mk.t_map_marker.transform.origin ∧
  mk'.t_map_marker.transform.basis =
    env.setRPY (env.getRPY mk.t_map_marker.transform.basis) ∧
  mk'.t_map_marker.is_valid = true

/-- A concrete collaborator environment for the witnesses: the two PnP solvers
return fixed answers whose rotation vectors differ by 1 in every component,
Rodrigues returns the identity basis, the Euler conversions store the three
angles in the first basis row (so `getRPY` after `setRPY` is the identity),
the running average keeps the old value, and the optimizer returns the
identity pose with a zero marginal covariance. -/
def env0 : Env where
  solvePnP := fun _ _ => ⟨fun _ => 0, fun _ => 0⟩
  solvePnPRansac := fun _ _ => ⟨fun _ => 1, fun _ => 0⟩
  rodrigues := fun _ => Transform.ident.basis
  getRPY := fun b => fun j => b 0 j
  setRPY := fun v => fun i j => if i = 0 then v j else 0
  update_simple_average := fun t _ _ => t
  optimize := fun _ _ _ => Transform.ident
  marginalCovariance := fun _ _ _ => fun _ _ => 0

/-- A concrete observation of the given marker id (a unit square of pixels). -/
def mk_obs (id : Int) : Observation := ⟨id, 0, 0, 10, 0, 10, 10, 0, 10⟩

/-- A concrete valid identity pose with zero covariance. -/
def twc0 : TransformWithCovariance := TransformWithCovariance.ofTransform Transform.ident

/-- A concrete empty covariance-style map with marker length 1/10. -/
def map_empty : Map := ⟨MapStyle.covariance, 1/10, []⟩

/-- A concrete fixed marker with id 3 at the identity. -/
def marker_fix3 : Marker := { Marker.ofIdTwc 3 twc0 with is_fixed := true }

/-- A concrete map holding only the fixed marker 3. -/
def map_fix3 : Map := ⟨MapStyle.covariance, 1/10, [marker_fix3]⟩

/-- A concrete non-fixed marker with id 5 whose stored covariance is zero at
index 0 (the x variance) but 1 at index 21 (the roll variance). -/
def marker_nf5 : Marker :=
  { Marker.ofIdTwc 5 ⟨true, Transform.ident, fun i => if i.val = 21 then 1 else 0⟩ with
    update_count := 4 }

/-- A concrete covariance-style map holding the fixed marker 3 and the
non-fixed marker 5. -/
def map_35 : Map := ⟨MapStyle.covariance, 1/10, [marker_fix3, marker_nf5]⟩

/-- A concrete vmap context configured for map-initialization mode 2 while
making a map (the file load therefore fails). -/
def cxt2 : VmapContext :=
  ⟨true, 2, true, 1/10, 0, twc0,
   Except.error "Config error: can not open config file for reading"⟩

/-! ### Theorems -/

/-- The permutation `ro` is an involution. -/
theorem SamFiducialMath.ro_ro (i : Fin 6) : ro (ro i) = i := by fin_cases i <;> rfl

/-- The defining clause of the source for `to_cov_sam`: entry `(ro r, ro c)`
of the result is `cov[r*6+c]`. -/
theorem SamFiducialMath.to_cov_sam_spec (cov : Cov36) (r c : Fin 6) :
    to_cov_sam cov (ro r) (ro c) =
      cov ⟨r.val * 6 + c.val, by have := r.isLt; have := c.isLt; omega⟩ := by
  fin_cases r <;> fin_cases c <;> rfl

/-- C9: converting a 36-entry covariance to the factor-graph ordering with
`to_cov_sam` and converting the result back with `to_cov_type` returns
exactly the original covariance, for every covariance and every pose. -/
theorem SamFiducialMath.to_cov_round_trip (sam_pose : Pose3) (cov : Cov36) :
    to_cov_type sam_pose (to_cov_sam cov) = cov := by
  funext k
  fin_cases k <;> rfl

/-- C6: the factor-graph backend's update_map is a no-op — the map is
returned unchanged, so no marker is inserted and no marker pose, covariance
or update count changes — whenever the camera pose is invalid or fewer than
two observations are given. -/
theorem sam_update_map_guard_noop (env : Env) (t_map_camera : TransformWithCovariance)
    (observations : List Observation) (map : Map)
    (h : t_map_camera.is_valid = false ∨ observations.length < 2) :
    SamFiducialMath.update_map env t_map_camera observations map = map := by
  rcases h with h | h <;> simp [SamFiducialMath.update_map, h]

/-- Witness for `sam_update_map_guard_noop`: the invalid pose with an empty
batch on a concrete map. -/
theorem sam_update_map_guard_noop_witness :
    (TransformWithCovariance.invalid.is_valid = false ∨
      ([] : List Observation).length < 2) ∧
    SamFiducialMath.update_map env0 TransformWithCovariance.invalid [] map_fix3 = map_fix3 :=
  ⟨Or.inl rfl,
   sam_update_map_guard_noop env0 TransformWithCovariance.invalid [] map_fix3 (Or.inl rfl)⟩

/-- C10: while the map is initialized, an observation batch with fewer than
two observations leaves the vmap node's observations callback a no-op: the
map comes back unchanged for every solver behaviour, so neither localization
nor any map update — in particular the geometric backend's single-marker
update path — is reachable through this node for such a batch. -/
theorem observations_callback_small_batch_noop (cxt : VmapContext) (env : Env)
    (observations : List Observation) (m : Map) (h : observations.length < 2) :
    VmapNode.observations_callback cxt env observations (some m) = some m := by
  simp [VmapNode.observations_callback, h]

/-- Witness for `observations_callback_small_batch_noop`: a single
observation against an initialized concrete map. -/
theorem observations_callback_small_batch_noop_witness :
    ([mk_obs 1].length < 2) ∧
    VmapNode.observations_callback cxt2 env0 [mk_obs 1] (some map_fix3) = some map_fix3 :=
  ⟨by decide,
   observations_callback_small_batch_noop cxt2 env0 [mk_obs 1] map_fix3 (by decide)⟩

/-- C4: evaluation of the code at the failing input (map-initialization mode
2, first batch observing markers 7 and 8).  `initialize_map` produces no Map
object in mode 2, so the observations callback — which the source lets call
`map_->add_marker` through that null pointer — never obtains a map; and the
marker seated by `initialize_map_from_observations` (run here against an
explicit empty map, since the member map does not exist) is the lowest-id
marker but is NOT fixed, `set_is_fixed(true)` never being called on it. -/
theorem map_init_mode2_broken :
    VmapNode.initialize_map cxt2 = none ∧
    VmapNode.observations_callback cxt2 env0 [mk_obs 7, mk_obs 8] none = none ∧
    (VmapNode.initialize_map_from_observations cxt2 env0 [mk_obs 7, mk_obs 8]
        (Map.mk MapStyle.covariance (1/10) [])).markers.map
      (fun m => (m.id, m.is_fixed)) = [((7 : Int), false)] :=
  ⟨rfl, rfl, rfl⟩

/-- With no known marker among the observations, the concatenated map-frame
corner list of the geometric solver is empty. -/
theorem all_corners_f_map_nil (observations : List Observation) (map : Map)
    (h : ∀ o ∈ observations, map.find_marker o.id = none) :
    CvFiducialMath.all_corners_f_map observations map = [] := by
  unfold CvFiducialMath.all_corners_f_map Map.find_t_map_markers
  induction observations with
  | nil => rfl
  | cons o os ih =>
    have ho := h o (List.mem_cons_self o os)
    have ih' := ih (fun o' ho' => h o' (List.mem_cons_of_mem o ho'))
    simpa [ho, TransformWithCovariance.invalid] using ih'

/-- With no known marker among the observations, the geometric
solve_t_map_camera returns the invalid pose. -/
theorem cv_solve_no_known (env : Env) (observations : List Observation) (map : Map)
    (h : ∀ o ∈ observations, map.find_marker o.id = none) :
    CvFiducialMath.solve_t_map_camera env observations map =
      TransformWithCovariance.invalid := by
  simp [CvFiducialMath.solve_t_map_camera, all_corners_f_map_nil observations map h]

/-- C3 (amended): with no observed marker known in the map, localize returns
the invalid pose on either backend; update_map with an invalid pose is a
no-op on the factor-graph backend, and on the geometric backend only for an
empty batch — the geometric update_map performs no validity check (see the
counterexample `cv_update_map_invalid_not_noop`). -/
theorem no_known_markers_short_circuit (env : Env) (observations : List Observation)
    (map : Map) (v : TransformWithCovariance) (sam_not_cv : Bool)
    (hunknown : ∀ o ∈ observations, map.find_marker o.id = none)
    (hv : v.is_valid = false) :
    FiducialMath.solve_t_map_camera sam_not_cv env observations map =
      TransformWithCovariance.invalid ∧
    FiducialMath.update_map true env v observations map = map ∧
    FiducialMath.update_map false env v [] map = map := by
  refine ⟨?_, ?_, ?_⟩
  · have hcv := cv_solve_no_known env observations map hunknown
    cases sam_not_cv with
    | false => simpa [FiducialMath.solve_t_map_camera] using hcv
    | true =>
      simp [FiducialMath.solve_t_map_camera, SamFiducialMath.solve_t_map_camera, hcv,
        TransformWithCovariance.invalid]
  · simp [FiducialMath.update_map, SamFiducialMath.update_map, hv]
  · simp [FiducialMath.update_map, CvFiducialMath.update_map]

/-- C3 is false as stated: on the geometric backend, update_map with an
invalid camera pose and a nonempty batch mutates the map — here it inserts
marker 1 into the empty map. -/
theorem cv_update_map_invalid_not_noop :
    TransformWithCovariance.invalid.is_valid = false ∧
    FiducialMath.update_map false env0 TransformWithCovariance.invalid [mk_obs 1] map_empty
      ≠ map_empty := by
  refine ⟨rfl, fun h => ?_⟩
  have h1 : (FiducialMath.update_map false env0 TransformWithCovariance.invalid [mk_obs 1]
      map_empty).markers.length = 1 := rfl
  rw [h] at h1
  exact absurd h1 (by decide)

/-- Witness for `no_known_markers_short_circuit`: marker 9 is unknown in the
concrete map holding only marker 3. -/
theorem no_known_markers_short_circuit_witness :
    (∀ o ∈ [mk_obs 9], map_fix3.find_marker o.id = none) ∧
    TransformWithCovariance.invalid.is_valid = false ∧
    (FiducialMath.solve_t_map_camera true env0 [mk_obs 9] map_fix3 =
       TransformWithCovariance.invalid ∧
     FiducialMath.update_map true env0 TransformWithCovariance.invalid [mk_obs 9] map_fix3 =
       map_fix3 ∧
     FiducialMath.update_map false env0 TransformWithCovariance.invalid [] map_fix3 =
       map_fix3) := by
  have hunknown : ∀ o ∈ [mk_obs 9], map_fix3.find_marker o.id = none := by
    intro o ho
    simp only [List.mem_singleton] at ho
    subst ho
    rfl
  exact ⟨hunknown, rfl,
    no_known_markers_short_circuit env0 [mk_obs 9] map_fix3
      TransformWithCovariance.invalid true hunknown rfl⟩

/-- An existential over the three rotation-vector components is the
three-way disjunction the source writes out. -/
theorem exists_fin3_gt_iff (r rr : PnPResult) :
    (∃ i : Fin 3, |r.rvec i - rr.rvec i| > 1/2) ↔
      (|r.rvec 0 - rr.rvec 0| > 1/2 ∨ |r.rvec 1 - rr.rvec 1| > 1/2 ∨
       |r.rvec 2 - rr.rvec 2| > 1/2) := by
  constructor
  · rintro ⟨i, hi⟩
    fin_cases i
    · exact Or.inl hi
    · exact Or.inr (Or.inl hi)
    · exact Or.inr (Or.inr hi)
  · rintro (h | h | h)
    · exact ⟨0, h⟩
    · exact ⟨1, h⟩
    · exact ⟨2, h⟩

/-- One step of the graph-loading loop appends the per-observation factor and
initial-value blocks to the accumulators. -/
theorem load_graph_step_eq (env : Env) (t : TransformWithCovariance) (map : Map)
    (ck : SamKey) (aum : Bool) (acc : List SamFactor × SamValues) (o : Observation) :
    SamFiducialMath.load_graph_step env t map ck aum acc o =
      (acc.1 ++ observation_factors env map ck aum o,
       acc.2 ++ observation_initial env t map aum o) := by
  obtain ⟨G, I⟩ := acc
  unfold SamFiducialMath.load_graph_step observation_factors observation_initial
  cases h : map.find_marker o.id with
  | some mk => simp [h, List.append_assoc]
  | none => cases aum <;> simp [h]

/-- The graph and initial estimate built by load_graph_from_observations are
the concatenations of the per-observation blocks, with the camera initial
value appended last. -/
theorem load_graph_from_observations_eq (env : Env) (t : TransformWithCovariance)
    (observations : List Observation) (map : Map) (ck : SamKey) (aum : Bool) :
    SamFiducialMath.load_graph_from_observations env t observations map ck aum =
      (observations.flatMap (observation_factors env map ck aum),
       observations.flatMap (observation_initial env t map aum) ++
         [(ck, to_pose3 t.transform)]) := by
  have key : ∀ (obs : List Observation) (G : List SamFactor) (I : SamValues),
      obs.foldl (SamFiducialMath.load_graph_step env t map ck aum) (G, I) =
        (G ++ obs.flatMap (observation_factors env map ck aum),
         I ++ obs.flatMap (observation_initial env t map aum)) := by
    intro obs
    induction obs with
    | nil => intro G I; simp
    | cons o os ih =>
      intro G I
      rw [List.foldl_cons, load_graph_step_eq, ih]
      simp [List.append_assoc]
  unfold SamFiducialMath.load_graph_from_observations
  rw [key]
  simp

/-- Counting resectioning factors distributes over append. -/
theorem num_resectioning_append (a b : List SamFactor) :
    num_resectioning (a ++ b) = num_resectioning a + num_resectioning b := by
  simp [num_resectioning, List.filter_append]

/-- No per-observation block of the map-update/localization graph contains a
resectioning factor. -/
theorem num_resectioning_observation_factors (env : Env) (map : Map) (ck : SamKey)
    (aum : Bool) (o : Observation) :
    num_resectioning (observation_factors env map ck aum o) = 0 := by
  unfold observation_factors
  cases h : map.find_marker o.id with
  | some mk => rfl
  | none => cases aum <;> rfl

/-- The graph built from any observation list contains no resectioning
factors. -/
theorem num_resectioning_bind (env : Env) (map : Map) (ck : SamKey) (aum : Bool)
    (obs : List Observation) :
    num_resectioning (obs.flatMap (observation_factors env map ck aum)) = 0 := by
  induction obs with
  | nil => rfl
  | cons o os ih =>
    simp [num_resectioning_append, num_resectioning_observation_factors, ih]

/-- Every initial value produced for an observation is keyed by a marker
symbol. -/
theorem observation_initial_keys (env : Env) (t : TransformWithCovariance) (map : Map)
    (aum : Bool) (o : Observation) :
    ∀ p ∈ observation_initial env t map aum o, ∃ id, p.1 = SamKey.marker id := by
  unfold observation_initial
  cases h : map.find_marker o.id with
  | some mk =>
    intro p hp
    simp only [List.mem_singleton] at hp
    exact ⟨o.id, by rw [hp]⟩
  | none =>
    cases aum with
    | false => intro p hp; simp at hp
    | true =>
      intro p hp
      simp only [if_true, List.mem_singleton] at hp
      exact ⟨o.id, by rw [hp]⟩

/-- Lookup of a key appended last, when no earlier entry carries it. -/
theorem lookup_last_of_fresh (v : Pose3) (ck : SamKey) (I : SamValues)
    (h : ∀ p ∈ I, p.1 ≠ ck) : (I ++ [(ck, v)]).lookup ck = some v := by
  induction I with
  | nil => simp
  | cons p ps ih =>
    obtain ⟨k, b⟩ := p
    have hk : k ≠ ck := h (k, b) (List.mem_cons_self _ _)
    have : (ck == k) = false := by
      simp [beq_iff_eq]
      exact fun he => hk he.symm
    simp only [List.cons_append, List.lookup]
    rw [this]
    exact ih (fun q hq => h q (List.mem_cons_of_mem _ hq))

/-- C1 (amended): whenever the geometric initial estimate is valid, the
factor-graph backend's solve_t_map_camera optimizes the graph built by
load_graph_from_observations with add_unknown_markers = false, whose factors
are, per observation of a known marker, exactly one between factor between
the marker variable and the camera variable (measured by
solve_camera_f_marker) and one prior on the marker variable at its stored map
pose — no resectioning factors occur; the camera variable is initialized with
the geometric estimate appended last; and the returned value is the optimized
camera pose with its marginal covariance. -/
theorem sam_solve_t_map_camera_structure (env : Env) (observations : List Observation)
    (map : Map)
    (hvalid : (CvFiducialMath.solve_t_map_camera env observations map).is_valid = true) :
    (SamFiducialMath.load_graph_from_observations env
        (CvFiducialMath.solve_t_map_camera env observations map) observations map
        SamFiducialMath.camera_key false).1 =
      observations.flatMap (observation_factors env map SamFiducialMath.camera_key false) ∧
    num_resectioning (SamFiducialMath.load_graph_from_observations env
        (CvFiducialMath.solve_t_map_camera env observations map) observations map
        SamFiducialMath.camera_key false).1 = 0 ∧
    (SamFiducialMath.load_graph_from_observations env
        (CvFiducialMath.solve_t_map_camera env observations map) observations map
        SamFiducialMath.camera_key false).2.lookup SamFiducialMath.camera_key =
      some (to_pose3 (CvFiducialMath.solve_t_map_camera env observations map).transform) ∧
    SamFiducialMath.solve_t_map_camera env observations map =
      SamFiducialMath.extract_transform_with_covariance env
        (SamFiducialMath.load_graph_from_observations env
          (CvFiducialMath.solve_t_map_camera env observations map) observations map
          SamFiducialMath.camera_key false).1
        (env.optimize
          (SamFiducialMath.load_graph_from_observations env
            (CvFiducialMath.solve_t_map_camera env observations map) observations map
            SamFiducialMath.camera_key false).1
          (SamFiducialMath.load_graph_from_observations env
            (CvFiducialMath.solve_t_map_camera env observations map) observations map
            SamFiducialMath.camera_key false).2)
        SamFiducialMath.camera_key := by
  have hload := load_graph_from_observations_eq env
    (CvFiducialMath.solve_t_map_camera env observations map) observations map
    SamFiducialMath.camera_key false
  refine ⟨?_, ?_, ?_, ?_⟩
  · rw [hload]
  · rw [hload]
    exact num_resectioning_bind env map SamFiducialMath.camera_key false observations
  · rw [hload]
    show (_ ++ [(SamFiducialMath.camera_key, _)]).lookup SamFiducialMath.camera_key = _
    apply lookup_last_of_fresh
    intro p hp
    obtain ⟨o', ho', hpo⟩ := List.mem_flatMap.mp hp
    obtain ⟨id, hid⟩ := observation_initial_keys env _ map false o' p hpo
    rw [hid]
    intro hcontra
    simp [SamFiducialMath.camera_key] at hcontra
  · simp [SamFiducialMath.solve_t_map_camera, hvalid]

/-- C1 is false as stated: at a concrete input with one known marker and a
valid geometric estimate, the graph optimized by the factor-graph backend's
solve_t_map_camera contains no resectioning factors at all, not the 4 per
known-marker observation the claim requires. -/
theorem sam_solve_resectioning_count_cex :
    (CvFiducialMath.solve_t_map_camera env0 [mk_obs 3] map_fix3).is_valid = true ∧
    num_resectioning (SamFiducialMath.load_graph_from_observations env0
      (CvFiducialMath.solve_t_map_camera env0 [mk_obs 3] map_fix3) [mk_obs 3] map_fix3
      SamFiducialMath.camera_key false).1 ≠ 4 := by
  exact ⟨rfl, by decide⟩

/-- Witness for `sam_solve_t_map_camera_structure`: the concrete one-known-
marker input has a valid geometric estimate and yields a graph with zero
resectioning factors. -/
theorem sam_solve_t_map_camera_structure_witness :
    (CvFiducialMath.solve_t_map_camera env0 [mk_obs 3] map_fix3).is_valid = true ∧
    num_resectioning (SamFiducialMath.load_graph_from_observations env0
      (CvFiducialMath.solve_t_map_camera env0 [mk_obs 3] map_fix3) [mk_obs 3] map_fix3
      SamFiducialMath.camera_key false).1 = 0 :=
  ⟨rfl, (sam_solve_t_map_camera_structure env0 [mk_obs 3] map_fix3 rfl).2.1⟩

/-- Priors on a key distribute over graph concatenation. -/
theorem priors_on_append (a b : List SamFactor) (k : SamKey) :
    priors_on (a ++ b) k = priors_on a k ++ priors_on b k := by
  simp [priors_on, List.filterMap_append]

/-- Priors on a key distribute over the per-observation blocks. -/
theorem priors_on_flatMap (obs : List Observation) (f : Observation → List SamFactor)
    (k : SamKey) :
    priors_on (obs.flatMap f) k = obs.flatMap (fun o => priors_on (f o) k) := by
  induction obs with
  | nil => rfl
  | cons o os ih => simp [priors_on_append, ih]

/-- The priors contributed by an observation of a known marker: exactly one,
on the marker's own key, with the constrained noise exactly under the
source's three-way condition. -/
theorem priors_on_observation_factors_known (env : Env) (map : Map) (ck : SamKey)
    (aum : Bool) (o : Observation) (k : SamKey) (mk : Marker)
    (h : map.find_marker o.id = some mk) :
    priors_on (observation_factors env map ck aum o) k =
      if SamKey.marker o.id = k then
        [if mk.is_fixed ∨ map.map_style = MapStyle.pose ∨
            SamFiducialMath.to_cov_sam mk.t_map_marker.cov 0 0 = 0
         then NoiseModel.constrained
         else NoiseModel.gaussianCov (SamFiducialMath.to_cov_sam mk.t_map_marker.cov)]
      else [] := by
  unfold observation_factors
  rw [h]
  by_cases hk : SamKey.marker o.id = k <;> simp [priors_on, List.filterMap_cons, hk]

/-- An observation of an unknown marker contributes no prior. -/
theorem priors_on_observation_factors_unknown (env : Env) (map : Map) (ck : SamKey)
    (aum : Bool) (o : Observation) (k : SamKey) (h : map.find_marker o.id = none) :
    priors_on (observation_factors env map ck aum o) k = [] := by
  unfold observation_factors
  rw [h]
  cases aum <;> simp [priors_on, List.filterMap_cons]

/-- C2 (amended): in the factor-graph map-update graph construction, the
prior added for a known marker uses the constrained (zero-sigma) noise model
if and only if the marker is fixed, or the map's style is Pose, or the
marker's stored covariance is zero at flat index 21 (row 3, column 3 — the
roll variance — which becomes position (0,0) after conversion to the
factor-graph ordering); in every other case the prior is Gaussian built from
the converted stored covariance. -/
theorem known_marker_prior_constrained_iff (env : Env) (t : TransformWithCovariance)
    (observations : List Observation) (map : Map) (ck : SamKey) (aum : Bool)
    (o : Observation) (mk : Marker) (ho : o ∈ observations)
    (hfound : map.find_marker o.id = some mk) :
    priors_on (SamFiducialMath.load_graph_from_observations env t observations map ck aum).1
      (SamKey.marker o.id) ≠ [] ∧
    ∀ noise ∈ priors_on
        (SamFiducialMath.load_graph_from_observations env t observations map ck aum).1
        (SamKey.marker o.id),
      noise = (if mk.is_fixed ∨ map.map_style = MapStyle.pose ∨
                  mk.t_map_marker.cov 21 = 0
               then NoiseModel.constrained
               else NoiseModel.gaussianCov (SamFiducialMath.to_cov_sam mk.t_map_marker.cov)) := by
  have hload := load_graph_from_observations_eq env t observations map ck aum
  have hcov : SamFiducialMath.to_cov_sam mk.t_map_marker.cov 0 0 =
      mk.t_map_marker.cov 21 := rfl
  constructor
  · rw [hload]
    show priors_on (observations.flatMap _) _ ≠ []
    have hmem : (if mk.is_fixed ∨ map.map_style = MapStyle.pose ∨
          SamFiducialMath.to_cov_sam mk.t_map_marker.cov 0 0 = 0
        then NoiseModel.constrained
        else NoiseModel.gaussianCov (SamFiducialMath.to_cov_sam mk.t_map_marker.cov)) ∈
        priors_on (observations.flatMap (observation_factors env map ck aum))
          (SamKey.marker o.id) := by
      rw [priors_on_flatMap]
      refine List.mem_flatMap.mpr ⟨o, ho, ?_⟩
      rw [priors_on_observation_factors_known env map ck aum o _ mk hfound]
      simp
    exact List.ne_nil_of_mem hmem
  · intro noise hmem
    rw [hload] at hmem
    replace hmem : noise ∈ priors_on
        (observations.flatMap (observation_factors env map ck aum))
        (SamKey.marker o.id) := hmem
    rw [priors_on_flatMap] at hmem
    obtain ⟨o', ho', hmem'⟩ := List.mem_flatMap.mp hmem
    rw [← hcov]
    cases hfind' : map.find_marker o'.id with
    | none =>
      rw [priors_on_observation_factors_unknown env map ck aum o' _ hfind'] at hmem'
      simp at hmem'
    | some mk' =>
      rw [priors_on_observation_factors_known env map ck aum o' _ mk' hfind'] at hmem'
      by_cases hk : SamKey.marker o'.id = SamKey.marker o.id
      · rw [if_pos hk] at hmem'
        simp only [List.mem_singleton] at hmem'
        have hid : o'.id = o.id := by
          simpa [SamKey.marker.injEq] using hk
        rw [hid, hfound] at hfind'
        injection hfind' with hmk
        subst hmk
        exact hmem'
      · rw [if_neg hk] at hmem'
        simp at hmem'

/-- C2 is false as stated: marker 5 is known, not fixed, in a
covariance-style map, and its stored covariance is zero at position (0,0)
(flat index 0) — so the claim requires a constrained prior — yet its roll
variance (flat index 21) is 1, and the code builds a Gaussian prior. -/
theorem known_marker_prior_cex :
    marker_nf5.is_fixed = false ∧
    map_35.map_style = MapStyle.covariance ∧
    marker_nf5.t_map_marker.cov 0 = 0 ∧
    map_35.find_marker 5 = some marker_nf5 ∧
    (priors_on (SamFiducialMath.load_graph_from_observations env0 twc0 [mk_obs 5] map_35
        (SamKey.camera 0) true).1 (SamKey.marker 5)).map NoiseModel.isConstrained =
      [false] := by
  refine ⟨rfl, rfl, by decide, rfl, by decide⟩

/-- Witness for `known_marker_prior_constrained_iff`: marker 5 is observed
and known in the concrete two-marker map, and a prior on it is present. -/
theorem known_marker_prior_constrained_iff_witness :
    (mk_obs 5 ∈ [mk_obs 5]) ∧
    map_35.find_marker (mk_obs 5).id = some marker_nf5 ∧
    priors_on (SamFiducialMath.load_graph_from_observations env0 twc0 [mk_obs 5] map_35
        (SamKey.camera 0) true).1 (SamKey.marker (mk_obs 5).id) ≠ [] :=
  ⟨List.mem_singleton_self _, rfl,
   (known_marker_prior_constrained_iff env0 twc0 [mk_obs 5] map_35 (SamKey.camera 0) true
      (mk_obs 5) marker_nf5 (List.mem_singleton_self _) rfl).1⟩

/-- C5: with at least one known marker, the geometric solve_t_map_camera
returns the pose derived from the RANSAC solve exactly when the corner count
is strictly between 4 and 16 AND some component of the two rotation vectors
differs by more than 1/2; in every other case — including exactly 4 corners
and 16 or more corners, and when no component differs by more than 1/2 — the
iterative solution is used unchanged. -/
theorem cv_mirror_guard (env : Env) (observations : List Observation) (map : Map)
    (hne : CvFiducialMath.all_corners_f_map observations map ≠ []) :
    ((4 < (CvFiducialMath.all_corners_f_image observations map).length ∧
      (CvFiducialMath.all_corners_f_image observations map).length < 16) ∧
     (∃ i : Fin 3,
       |(env.solvePnP (CvFiducialMath.all_corners_f_map observations map)
           (CvFiducialMath.all_corners_f_image observations map)).rvec i -
        (env.solvePnPRansac (CvFiducialMath.all_corners_f_map observations map)
           (CvFiducialMath.all_corners_f_image observations map)).rvec i| > 1/2) →
      CvFiducialMath.solve_t_map_camera env observations map =
        TransformWithCovariance.ofTransform
          (CvFiducialMath.to_tf2_transform env
            (env.solvePnPRansac (CvFiducialMath.all_corners_f_map observations map)
              (CvFiducialMath.all_corners_f_image observations map)).rvec
            (env.solvePnPRansac (CvFiducialMath.all_corners_f_map observations map)
              (CvFiducialMath.all_corners_f_image observations map)).tvec).inverse) ∧
    (¬(((4 < (CvFiducialMath.all_corners_f_image observations map).length ∧
         (CvFiducialMath.all_corners_f_image observations map).length < 16) ∧
        (∃ i : Fin 3,
          |(env.solvePnP (CvFiducialMath.all_corners_f_map observations map)
              (CvFiducialMath.all_corners_f_image observations map)).rvec i -
           (env.solvePnPRansac (CvFiducialMath.all_corners_f_map observations map)
              (CvFiducialMath.all_corners_f_image observations map)).rvec i| > 1/2))) →
      CvFiducialMath.solve_t_map_camera env observations map =
        TransformWithCovariance.ofTransform
          (CvFiducialMath.to_tf2_transform env
            (env.solvePnP (CvFiducialMath.all_corners_f_map observations map)
              (CvFiducialMath.all_corners_f_image observations map)).rvec
            (env.solvePnP (CvFiducialMath.all_corners_f_map observations map)
              (CvFiducialMath.all_corners_f_image observations map)).tvec).inverse) := by
  have hempty : (CvFiducialMath.all_corners_f_map observations map).isEmpty = false := by
    cases hmap : CvFiducialMath.all_corners_f_map observations map with
    | nil => exact absurd hmap hne
    | cons a l => rfl
  set pts := CvFiducialMath.all_corners_f_map observations map with hpts
  set imgs := CvFiducialMath.all_corners_f_image observations map with himgs
  set r := env.solvePnP pts imgs with hr
  set rr := env.solvePnPRansac pts imgs with hrr
  rw [exists_fin3_gt_iff r rr]
  constructor
  · rintro ⟨⟨hlo, hhi⟩, hdiff⟩
    simp only [CvFiducialMath.solve_t_map_camera, ← hpts, ← himgs, ← hr, ← hrr, hempty,
      Bool.false_eq_true, if_false]
    rw [if_pos ⟨by omega, by omega⟩, if_pos hdiff]
  · intro hneg
    simp only [CvFiducialMath.solve_t_map_camera, ← hpts, ← himgs, ← hr, ← hrr, hempty,
      Bool.false_eq_true, if_false]
    by_cases hband : 1 * 4 < imgs.length ∧ imgs.length < 4 * 4
    · rw [if_pos hband, if_neg]
      intro hdiff
      exact hneg ⟨⟨by omega, by omega⟩, hdiff⟩
    · rw [if_neg hband]

/-- Witness for `cv_mirror_guard`: one known marker gives 4 corners, so the
guard band does not apply and the iterative solution is returned unchanged
even though the concrete RANSAC rotation differs by 1. -/
theorem cv_mirror_guard_witness :
    (CvFiducialMath.all_corners_f_map [mk_obs 3] map_fix3 ≠ []) ∧
    CvFiducialMath.solve_t_map_camera env0 [mk_obs 3] map_fix3 =
      TransformWithCovariance.ofTransform
        (CvFiducialMath.to_tf2_transform env0
          (env0.solvePnP (CvFiducialMath.all_corners_f_map [mk_obs 3] map_fix3)
            (CvFiducialMath.all_corners_f_image [mk_obs 3] map_fix3)).rvec
          (env0.solvePnP (CvFiducialMath.all_corners_f_map [mk_obs 3] map_fix3)
            (CvFiducialMath.all_corners_f_image [mk_obs 3] map_fix3)).tvec).inverse := by
  have hne : CvFiducialMath.all_corners_f_map [mk_obs 3] map_fix3 ≠ [] := by
    intro h
    exact absurd (congrArg List.length h) (by decide)
  exact ⟨hne, (cv_mirror_guard env0 [mk_obs 3] map_fix3 hne).2 (by decide)⟩

/-- Finding by id commutes with an id-preserving rewrite of the markers. -/
theorem find_id_map_of_id_preserving (g : Marker → Marker) (hg : ∀ x, (g x).id = x.id)
    (id : Int) (l : List Marker) :
    (l.map g).find? (fun m => m.id = id) = (l.find? (fun m => m.id = id)).map g := by
  induction l with
  | nil => rfl
  | cons x xs ih =>
    simp only [List.map_cons, List.find?_cons]
    rw [hg x]
    cases h : (decide (x.id = id)) with
    | false => exact ih
    | true => rfl

/-- A successful find survives appending further markers. -/
theorem find_append_of_some (p : Marker → Bool) (l l' : List Marker) (x : Marker)
    (h : l.find? p = some x) : (l ++ l').find? p = some x := by
  induction l with
  | nil => simp [List.find?] at h
  | cons y ys ih =>
    simp only [List.cons_append, List.find?_cons] at h ⊢
    cases hy : p y with
    | true => rw [hy] at h; exact h
    | false => rw [hy] at h; exact ih h

/-- Finding by id after `set_marker`: the found marker is rewritten in
place. -/
theorem find_marker_set_marker (map : Map) (mk' : Marker) (id : Int) :
    (map.set_marker mk').find_marker id =
      (map.find_marker id).map (fun x => if x.id = mk'.id then mk' else x) := by
  unfold Map.set_marker Map.find_marker
  apply find_id_map_of_id_preserving
  intro x
  by_cases h : x.id = mk'.id
  · simp [h]
  · simp [h]

/-- Finding an existing marker is unaffected by `add_marker`. -/
theorem find_marker_add_marker (map : Map) (mk' : Marker) (id : Int) (x : Marker)
    (h : map.find_marker id = some x) :
    (map.add_marker mk').find_marker id = some x := by
  unfold Map.add_marker
  cases hf : map.find_marker mk'.id with
  | some y => exact h
  | none => exact find_append_of_some _ _ _ _ h

/-- `update_marker_simple_average` preserves the marker id. -/
theorem update_marker_simple_average_id (env : Env) (m : Marker)
    (twc : TransformWithCovariance) :
    (CvFiducialMath.update_marker_simple_average env m twc).id = m.id := by
  unfold CvFiducialMath.update_marker_simple_average
  by_cases h : m.is_fixed <;> simp [h]

/-- `update_marker_simple_average` on a fixed marker is the identity. -/
theorem update_marker_simple_average_fixed (env : Env) (m : Marker)
    (twc : TransformWithCovariance) (h : m.is_fixed = true) :
    CvFiducialMath.update_marker_simple_average env m twc = m := by
  unfold CvFiducialMath.update_marker_simple_average
  simp [h]

/-- A fold of map-updating steps that each preserve a found marker preserves
it globally. -/
theorem foldl_preserves_find (id : Int) (mk : Marker) (step : Map → Observation → Map)
    (hstep : ∀ m o, m.find_marker id = some mk → (step m o).find_marker id = some mk) :
    ∀ (obs : List Observation) (m : Map), m.find_marker id = some mk →
      (obs.foldl step m).find_marker id = some mk := by
  intro obs
  induction obs with
  | nil => intro m hm; exact hm
  | cons o os ih =>
    intro m hm
    rw [List.foldl_cons]
    exact ih _ (hstep m o hm)

/-- The geometric backend's update_map leaves a fixed marker untouched. -/
theorem cv_update_map_keeps_fixed (env : Env) (t : TransformWithCovariance)
    (obs : List Observation) (map : Map) (id : Int) (mk : Marker)
    (hfind : map.find_marker id = some mk) (hfx : mk.is_fixed = true) :
    (CvFiducialMath.update_map env t obs map).find_marker id = some mk := by
  have hmkid : mk.id = id := by
    have := List.find?_some hfind
    simpa using this
  refine foldl_preserves_find id mk _ ?_ obs map hfind
  intro m o hm
  show (match m.find_marker o.id with
    | some marker =>
      m.set_marker (CvFiducialMath.update_marker_simple_average env marker
        (TransformWithCovariance.ofTransform
          (t.transform.compose
            (CvFiducialMath.solve_t_camera_marker env o m.marker_length).transform)))
    | none =>
      m.add_marker (Marker.ofIdTwc o.id
        (TransformWithCovariance.ofTransform
          (t.transform.compose
            (CvFiducialMath.solve_t_camera_marker env o m.marker_length).transform)))).find_marker
      id = some mk
  cases hfo : m.find_marker o.id with
  | none => exact find_marker_add_marker m _ id mk hm
  | some marker =>
    have hmarkerid : marker.id = o.id := by
      have := List.find?_some hfo
      simpa using this
    rw [find_marker_set_marker, hm]
    simp only [Option.map_some']
    by_cases hoid : o.id = id
    · have hmarker : marker = mk := by
        rw [hoid] at hfo
        rw [hm] at hfo
        exact Option.some_inj.mp hfo.symm
      subst hmarker
      rw [update_marker_simple_average_fixed env marker]
      · simp
      · exact hfx
    · rw [update_marker_simple_average_id]
      rw [if_neg]
      rw [hmarkerid, hmkid]
      exact fun h => hoid h.symm

/-- The factor-graph backend's update_map leaves a fixed marker untouched. -/
theorem sam_update_map_keeps_fixed (env : Env) (t : TransformWithCovariance)
    (obs : List Observation) (map : Map) (id : Int) (mk : Marker)
    (hfind : map.find_marker id = some mk) (hfx : mk.is_fixed = true) :
    (SamFiducialMath.update_map env t obs map).find_marker id = some mk := by
  have hmkid : mk.id = id := by
    have := List.find?_some hfind
    simpa using this
  unfold SamFiducialMath.update_map
  by_cases hguard : (!t.is_valid ∨ obs.length < 2)
  · rw [if_pos hguard]; exact hfind
  · rw [if_neg hguard]
    refine foldl_preserves_find id mk _ ?_ obs map hfind
    intro m o hm
    cases hfo : m.find_marker o.id with
    | none =>
      simp only [hfo]
      exact find_marker_add_marker m _ id mk hm
    | some marker_ptr =>
      have hmarkerid : marker_ptr.id = o.id := by
        have := List.find?_some hfo
        simpa using this
      simp only [hfo]
      by_cases hfix : marker_ptr.is_fixed
      · simp only [hfix, Bool.not_true, Bool.false_eq_true, if_false]
        exact hm
      · have hfix' : marker_ptr.is_fixed = false := by
          cases hbf : marker_ptr.is_fixed
          · rfl
          · exact absurd hbf hfix
        simp only [hfix', Bool.not_false, if_true]
        rw [find_marker_set_marker, hm]
        have hoid : o.id ≠ id := by
          intro hoid
          rw [hoid, hm] at hfo
          have heq : marker_ptr = mk := Option.some_inj.mp hfo.symm
          rw [heq, hfx] at hfix'
          exact absurd hfix' (by decide)
        simp only [Option.map_some']
        rw [if_neg]
        show ¬ mk.id = marker_ptr.id
        rw [hmarkerid, hmkid]
        exact fun h => hoid h.symm

/-- C7: a fixed marker survives every sequence of update_map calls, on either
backend and under every collaborator behaviour, completely unchanged — the
same marker record (pose, covariance, update count and flag) is still found
under its id afterwards. -/
theorem fixed_marker_immutable
    (seq : List (Env × Bool × TransformWithCovariance × List Observation)) (map : Map)
    (id : Int) (mk : Marker) (hfind : map.find_marker id = some mk)
    (hfx : mk.is_fixed = true) :
    (seq.foldl (fun m c => FiducialMath.update_map c.2.1 c.1 c.2.2.1 c.2.2.2 m)
        map).find_marker id = some mk := by
  induction seq generalizing map with
  | nil => exact hfind
  | cons c cs ih =>
    rw [List.foldl_cons]
    refine ih _ ?_
    obtain ⟨env, flag, v, obs⟩ := c
    cases flag with
    | true =>
      exact sam_update_map_keeps_fixed env v obs map id mk hfind hfx
    | false =>
      exact cv_update_map_keeps_fixed env v obs map id mk hfind hfx

/-- The YAML cast of an integer scalar returns the integer. -/
theorem asInt_intCast (n : Int) : asInt (n : ℚ) = n := by
  simp [asInt]

/-- Emitting one marker and parsing it back succeeds and returns a marker
related to the original by `RoundTripRel`; the parsed covariance is the
original one, except that the pose style parses it as all zeros. -/
theorem from_marker_round (env : Env) (style : MapStyle) (mk : Marker) :
    ∃ mk', FromYAML.from_marker env style (ToYAML.do_marker env style mk) = .ok mk' ∧
      RoundTripRel env mk mk' ∧
      mk'.t_map_marker.cov =
        (if style = MapStyle.pose then (fun _ => 0) else mk.t_map_marker.cov) := by
  have hvec : ∀ g : Fin 3 → ℚ, (![g 0, g 1, g 2] : Fin 3 → ℚ) = g := by
    intro g
    funext i
    fin_cases i <;> rfl
  cases style <;>
    refine ⟨_, rfl, ⟨?_, ?_, ?_, ?_, ?_, ?_⟩, ?_⟩ <;>
    first
      | rfl
      | (simp [asInt, Marker.ofIdTwc]; done)
      | (cases hb : mk.is_fixed <;> simp [hb] <;> decide)
      | (funext i; fin_cases i <;> rfl)
      | (refine congrArg env.setRPY ?_; funext i; fin_cases i <;> rfl)

/-- A find that fails on both halves fails on the concatenation. -/
theorem find?_append_none (p : Marker → Bool) (l l' : List Marker)
    (h : l.find? p = none) (h' : l'.find? p = none) : (l ++ l').find? p = none := by
  induction l with
  | nil => exact h'
  | cons y ys ih =>
    simp only [List.cons_append, List.find?_cons] at h ⊢
    cases hy : p y with
    | true => rw [hy] at h; exact absurd h (by simp)
    | false => rw [hy] at h; exact ih h

/-- Parsing a marker sequence steps through a successfully parsed head by
inserting it. -/
theorem from_markers_cons_ok (env : Env) (node : YamlNode) (nodes : List YamlNode)
    (map : Map) (mk' : Marker) (hnode : ∃ es, node = YamlNode.kvmap es)
    (h : FromYAML.from_marker env map.map_style node = .ok mk') :
    FromYAML.from_markers env (node :: nodes) map =
      FromYAML.from_markers env nodes (map.add_marker mk') := by
  obtain ⟨es, rfl⟩ := hnode
  unfold FromYAML.from_markers
  rw [List.foldlM_cons]
  simp only [h]
  rfl

/-- Emitting a marker list and parsing it back onto a fresh accumulator
appends, in order, markers related to the originals by `RoundTripRel`. -/
theorem from_markers_round (env : Env) (orig : List Marker) (style : MapStyle)
    (len : ℚ) (ms : List Marker)
    (hfresh : ∀ mk ∈ orig, (Map.mk style len ms).find_marker mk.id = none)
    (hnodup : (orig.map Marker.id).Nodup) :
    ∃ tail, FromYAML.from_markers env (orig.map (ToYAML.do_marker env style))
        (Map.mk style len ms) = .ok (Map.mk style len (ms ++ tail)) ∧
      List.Forall₂ (fun mk mk' => RoundTripRel env mk mk' ∧
        mk'.t_map_marker.cov = (if style = MapStyle.pose then (fun _ => 0)
          else mk.t_map_marker.cov)) orig tail := by
  induction orig generalizing ms with
  | nil => exact ⟨[], by simp [FromYAML.from_markers]; rfl, List.Forall₂.nil⟩
  | cons mk rest ih =>
    obtain ⟨mk', hparse, hrel, hcov⟩ := from_marker_round env style mk
    have hid' : mk'.id = mk.id := hrel.1
    have hfreshmk := hfresh mk (List.mem_cons_self _ _)
    have hadd : (Map.mk style len ms).add_marker mk' =
        Map.mk style len (ms ++ [mk']) := by
      unfold Map.add_marker
      have hnone : (Map.mk style len ms).find_marker mk'.id = none := by
        rw [show (Map.mk style len ms).find_marker mk'.id =
              (Map.mk style len ms).find_marker mk.id from by rw [hid']]
        exact hfreshmk
      rw [hnone]
    have hpair : (∀ x ∈ rest, ¬ x.id = mk.id) ∧ (rest.map Marker.id).Nodup := by
      simpa using hnodup
    have hrest_fresh : ∀ x ∈ rest, (Map.mk style len (ms ++ [mk'])).find_marker x.id
        = none := by
      intro x hx
      show ((ms ++ [mk']).find? fun m => m.id = x.id) = none
      apply find?_append_none
      · exact hfresh x (List.mem_cons_of_mem _ hx)
      · have hne : ¬ mk.id = x.id := fun h => hpair.1 x hx h.symm
        simp [List.find?, hid', hne]
    obtain ⟨tail, htail, hrel2⟩ := ih (ms ++ [mk']) hrest_fresh hpair.2
    refine ⟨mk' :: tail, ?_, List.Forall₂.cons ⟨hrel, hcov⟩ hrel2⟩
    rw [List.map_cons,
      from_markers_cons_ok env (ToYAML.do_marker env style mk)
        (rest.map (ToYAML.do_marker env style)) (Map.mk style len ms) mk' ⟨_, rfl⟩ hparse,
      hadd, htail]
    simp

/-- Round trip of a whole map: parsing the emitted document succeeds and
returns a map with the same style and marker length whose markers relate
pairwise to the originals. -/
theorem from_map_round (env : Env) (m : Map)
    (hnodup : (m.markers.map Marker.id).Nodup) :
    ∃ m', FromYAML.from_map env (ToYAML.do_map env m) = .ok m' ∧
      m'.map_style = m.map_style ∧ m'.marker_length = m.marker_length ∧
      List.Forall₂ (fun mk mk' => RoundTripRel env mk mk' ∧
        mk'.t_map_marker.cov = (if m.map_style = MapStyle.pose then (fun _ => 0)
          else mk.t_map_marker.cov)) m.markers m'.markers := by
  obtain ⟨style, len, ms⟩ := m
  have hsty : styleOfInt (asInt (styleToInt style)) = style := by
    cases style <;> rfl
  have hroot : FromYAML.from_map env (ToYAML.do_map env (Map.mk style len ms)) =
      FromYAML.from_markers env (ms.map (ToYAML.do_marker env style))
        (Map.mk (styleOfInt (asInt (styleToInt style))) len []) := rfl
  obtain ⟨tail, htail, hrel⟩ :=
    from_markers_round env ms style len [] (fun mk _ => rfl) hnodup
  refine ⟨Map.mk style len ([] ++ tail), ?_, rfl, rfl, ?_⟩
  · rw [hroot, hsty]
    exact htail
  · simpa using hrel

/-- A pose-style marker document carries no `cov` key. -/
theorem do_marker_pose_no_cov (env : Env) (mk : Marker) :
    (ToYAML.do_marker env MapStyle.pose mk).get "cov" = none := rfl

/-- `add_marker` never changes the map style. -/
theorem add_marker_map_style (map : Map) (mk : Marker) :
    (map.add_marker mk).map_style = map.map_style := by
  unfold Map.add_marker
  cases map.find_marker mk.id <;> rfl

/-- Parsing a marker sequence never changes the map style. -/
theorem from_markers_style (env : Env) (nodes : List YamlNode) (map m' : Map)
    (h : FromYAML.from_markers env nodes map = .ok m') : m'.map_style = map.map_style := by
  induction nodes generalizing map with
  | nil =>
    have hok : Except.ok map = Except.ok m' := h
    rw [Except.ok.injEq] at hok
    rw [hok]
  | cons node nodes ih =>
    cases node with
    | scalar v =>
      unfold FromYAML.from_markers at h
      rw [List.foldlM_cons] at h
      exact Except.noConfusion h
    | seq items =>
      unfold FromYAML.from_markers at h
      rw [List.foldlM_cons] at h
      exact Except.noConfusion h
    | kvmap es =>
      unfold FromYAML.from_markers at h
      rw [List.foldlM_cons] at h
      cases hp : FromYAML.from_marker env map.map_style (.kvmap es) with
      | error e =>
        rw [hp] at h
        exact Except.noConfusion h
      | ok mk' =>
        rw [hp] at h
        have h' : FromYAML.from_markers env nodes (map.add_marker mk') = .ok m' := h
        calc m'.map_style = (map.add_marker mk').map_style := ih _ h'
          _ = map.map_style := add_marker_map_style map mk'

/-- A right member of a `Forall₂` pairing has a related left member. -/
theorem forall₂_mem_right {R : Marker → Marker → Prop} {l l' : List Marker}
    (h : List.Forall₂ R l l') : ∀ y ∈ l', ∃ x ∈ l, R x y := by
  induction h with
  | nil => intro y hy; simp at hy
  | cons hR hrest ih =>
    intro y hy
    rcases List.mem_cons.mp hy with rfl | hy'
    · exact ⟨_, List.mem_cons_self _ _, hR⟩
    · obtain ⟨x, hx, hxy⟩ := ih y hy'
      exact ⟨x, List.mem_cons_of_mem _ hx, hxy⟩

/-- C8: emitting a covariance-style map to YAML and parsing it back yields a
map with the same style and marker length and, marker by marker and in
order, the same id, fixed flag, update count, translation, Euler angles
(exactly, in this rational model — the spec's 1e-12 bound covers the decimal
encoding) and 36-entry covariance; when the style is Pose the `cov` key is
omitted on emission and every parsed covariance is all zeros; and a document
without a `map_style` key parses as Pose. -/
theorem yaml_round_trip (env : Env) (m : Map)
    (hgs : ∀ v, env.getRPY (env.setRPY v) = v)
    (hnodup : (m.markers.map Marker.id).Nodup) :
    (m.map_style = MapStyle.covariance →
      ∃ m', FromYAML.from_map env (ToYAML.do_map env m) = .ok m' ∧
        m'.map_style = m.map_style ∧ m'.marker_length = m.marker_length ∧
        List.Forall₂ (fun mk mk' =>
          mk'.id = mk.id ∧ mk'.is_fixed = mk.is_fixed ∧
          mk'.update_count = mk.update_count ∧
          mk'.t_map_marker.transform.origin = mk.t_map_marker.transform.origin ∧
          env.getRPY mk'.t_map_marker.transform.basis =
            env.getRPY mk.t_map_marker.transform.basis ∧
          mk'.t_map_marker.cov = mk.t_map_marker.cov) m.markers m'.markers) ∧
    (m.map_style = MapStyle.pose →
      (∀ mk ∈ m.markers, (ToYAML.do_marker env m.map_style mk).get "cov" = none) ∧
      ∃ m', FromYAML.from_map env (ToYAML.do_map env m) = .ok m' ∧
        m'.map_style = m.map_style ∧ m'.marker_length = m.marker_length ∧
        ∀ mk' ∈ m'.markers, mk'.t_map_marker.cov = (fun _ => 0)) ∧
    (∀ entries m'', (YamlNode.kvmap entries).get "map_style" = none →
      FromYAML.from_map env (.kvmap entries) = .ok m'' →
      m''.map_style = MapStyle.pose) := by
  refine ⟨?_, ?_, ?_⟩
  · intro hsty
    obtain ⟨m', h1, h2, h3, hrel⟩ := from_map_round env m hnodup
    refine ⟨m', h1, h2, h3, ?_⟩
    refine List.Forall₂.imp ?_ hrel
    rintro mk mk' ⟨⟨hid, hu, hf, ho, hb, hv⟩, hcov⟩
    rw [hsty] at hcov
    refine ⟨hid, hf, hu, ho, by rw [hb, hgs], by simpa using hcov⟩
  · intro hsty
    constructor
    · intro mk _
      rw [hsty]
      exact do_marker_pose_no_cov env mk
    · obtain ⟨m', h1, h2, h3, hrel⟩ := from_map_round env m hnodup
      refine ⟨m', h1, h2, h3, ?_⟩
      intro mk' hmk'
      obtain ⟨mk, _, _, hcov⟩ := forall₂_mem_right hrel mk' hmk'
      rw [hsty] at hcov
      simpa using hcov
  · intro entries m'' hnone hok
    unfold FromYAML.from_map at hok
    simp only [hnone] at hok
    cases hml : (YamlNode.kvmap entries).get "marker_length" with
    | none =>
      rw [hml] at hok
      exact Except.noConfusion hok
    | some node =>
      rw [hml] at hok
      cases node with
      | seq items => exact Except.noConfusion hok
      | kvmap es => exact Except.noConfusion hok
      | scalar len =>
        cases hms : (YamlNode.kvmap entries).get "markers" with
        | none =>
          rw [hms] at hok
          exact Except.noConfusion hok
        | some mnode =>
          rw [hms] at hok
          cases mnode with
          | scalar v => exact Except.noConfusion hok
          | kvmap es => exact Except.noConfusion hok
          | seq marker_nodes =>
            exact from_markers_style env marker_nodes _ m'' hok

/-- Witness for `yaml_round_trip`: the concrete two-marker covariance-style
map (one fixed marker, one with a nonzero covariance entry) under the
concrete Euler conversions, which satisfy the getRPY-after-setRPY law. -/
theorem yaml_round_trip_witness :
    (∀ v, env0.getRPY (env0.setRPY v) = v) ∧
    (map_35.markers.map Marker.id).Nodup ∧
    (∃ m', FromYAML.from_map env0 (ToYAML.do_map env0 map_35) = .ok m' ∧
      m'.map_style = map_35.map_style ∧ m'.marker_length = map_35.marker_length ∧
      List.Forall₂ (fun mk mk' =>
        mk'.id = mk.id ∧ mk'.is_fixed = mk.is_fixed ∧
        mk'.update_count = mk.update_count ∧
        mk'.t_map_marker.transform.origin = mk.t_map_marker.transform.origin ∧
        env0.getRPY mk'.t_map_marker.transform.basis =
          env0.getRPY mk.t_map_marker.transform.basis ∧
        mk'.t_map_marker.cov = mk.t_map_marker.cov) map_35.markers m'.markers) := by
  have hgs : ∀ v, env0.getRPY (env0.setRPY v) = v := fun v => funext fun j => rfl
  have hnodup : (map_35.markers.map Marker.id).Nodup := by decide
  exact ⟨hgs, hnodup, (yaml_round_trip env0 map_35 hgs hnodup).1 rfl⟩

/-- Witness for `fixed_marker_immutable`: two successive update calls (one
per backend) leave the concrete fixed marker 3 unchanged. -/
theorem fixed_marker_immutable_witness :
    map_fix3.find_marker 3 = some marker_fix3 ∧
    marker_fix3.is_fixed = true ∧
    ([(env0, false, twc0, [mk_obs 3]), (env0, true, twc0, [mk_obs 3, mk_obs 9])].foldl
        (fun m c => FiducialMath.update_map c.2.1 c.1 c.2.2.1 c.2.2.2 m)
        map_fix3).find_marker 3 = some marker_fix3 :=
  ⟨rfl, rfl,
   fixed_marker_immutable [(env0, false, twc0, [mk_obs 3]), (env0, true, twc0,
     [mk_obs 3, mk_obs 9])] map_fix3 3 marker_fix3 rfl rfl⟩

end FiducialVlam
